import Mathlib

/-!
# Tuktuk-Thai progressive translation pipeline — verification

Shallow embedding of the staleness-guarded translation pipeline of the
Tuktuk-Thai repository:

* `src/types.ts` — `LoadingState`, `Segment`, `TranslationResult`;
* `src/services/geminiService.ts` — `getSynonymsForSegments` (Stage 3
  service: slices the first 8 segments, sends their Thai texts, merges
  the returned synonyms back by exact text match, returns the original
  segments on any failure);
* `src/components/TranslateTab.tsx` — `handleSearch`: the three-stage
  pipeline (quickTranslate, analyzeText, getSynonymsForSegments) with
  the `currentSearchRef` staleness token.

Remote calls are modelled by oracles carried in a `Query`: each stage's
outcome (`Option` of its response, `none` = the promise rejects /
the remote call fails).  JavaScript is single threaded, so the code
between two `await`s runs atomically; the embedding therefore models an
execution as an interleaving of atomic resume blocks, one `Pos` per
suspension point of `handleSearch`.
-/

/-- `LoadingState` from `src/types.ts`. -/
inductive LoadingState where
  | IDLE
  | LOADING
  | PARTIAL_SUCCESS
  | SUCCESS
  | ERROR
deriving DecidableEq, Repr

/-- `Segment` from `src/types.ts`; `synonyms?: string[]` is optional,
so it is an `Option`: `none` models the field being absent. -/
structure Segment where
  thai : String
  transliteration : String
  english : String
  partOfSpeech : String
  synonyms : Option (List String) := none
deriving DecidableEq, Repr

/-- `TranslationResult` from `src/types.ts` (the optional `audioBase64`
field is never touched by the pipeline and is omitted). -/
structure TranslationResult where
  originalText : String
  translatedText : String
  transliteration : String
  segments : List Segment
  exampleSentenceThai : String
  exampleSentenceEnglish : String
deriving DecidableEq, Repr

/-- One entry of the Stage 3 enrichment response:
`{ word: string, synonyms: string[] }` (schema in
`src/services/geminiService.ts`). -/
structure SynEntry where
  word : String
  synonyms : List String
deriving DecidableEq, Repr

/-- The resolved value of `quickTranslate` (Stage 1):
`{ translatedText, transliteration }`. -/
structure BasicTranslation where
  translatedText : String
  transliteration : String
deriving DecidableEq, Repr

/-- The resolved value of `analyzeText` (Stage 2):
`{ segments, exampleSentenceThai, exampleSentenceEnglish }`. -/
structure Analysis where
  segments : List Segment
  exampleSentenceThai : String
  exampleSentenceEnglish : String
deriving DecidableEq, Repr

/-- The synonym merge of `getSynonymsForSegments`
(`src/services/geminiService.ts`, the `segments.map` at lines 182-188):
for each segment, `synonymData.find(d => d.word === segment.thai)` and
`synonyms: match ? match.synonyms : []`.  `List.find?` is JavaScript's
`Array.prototype.find`: the first entry whose `word` equals the
segment's `thai` text.  A segment with no matching entry gets
`synonyms: []` — the field is present and empty, not absent. -/
def mergeSynonyms (segments : List Segment) (synonymData : List SynEntry) :
    List Segment :=
  segments.map fun segment =>
    match synonymData.find? (fun d => d.word == segment.thai) with
    | some m => { segment with synonyms := some m.synonyms }
    | none => { segment with synonyms := some [] }

/-- `getSynonymsForSegments` from `src/services/geminiService.ts`.
`response` is the oracle for the remote call (`none` = the call or the
parse throws; the function's own `try/catch` then returns the original
segments).  The second component records the list of words submitted to
the remote call (`none` = no remote call was made): the code sends
`segments.slice(0, 8).map(s => s.thai)` joined into the prompt. -/
def getSynonymsForSegments (segments : List Segment)
    (response : Option (List SynEntry)) :
    List Segment × Option (List String) :=
  if segments.isEmpty then (segments, none)
  else
    let words := (segments.take 8).map Segment.thai
    match response with
    | none => (segments, some words)
    | some synonymData => (mergeSynonyms segments synonymData, some words)

/-- JavaScript's `String.prototype.trim`, used by `handleSearch` as
`input.trim()`: remove leading and trailing whitespace.  (Structurally
recursive so that concrete executions reduce in the kernel.) -/
def jsTrim (s : String) : String :=
  ⟨((s.data.dropWhile Char.isWhitespace).reverse.dropWhile
      Char.isWhitespace).reverse⟩

/-- The `initialResult` built in `handleSearch` after Stage 1
(`src/components/TranslateTab.tsx` lines 51-58): Stage 1's text and
transliteration, empty segments and example fields. -/
def initialResult (currentTerm : String) (basic : BasicTranslation) :
    TranslationResult :=
  { originalText := currentTerm
    translatedText := basic.translatedText
    transliteration := basic.transliteration
    segments := []
    exampleSentenceThai := ""
    exampleSentenceEnglish := "" }

/-- The `intermediateResult` built after Stage 2 (lines 68-73):
`initialResult` patched with the analysis segments and examples. -/
def intermediateResult (currentTerm : String) (basic : BasicTranslation)
    (details : Analysis) : TranslationResult :=
  { initialResult currentTerm basic with
      segments := details.segments
      exampleSentenceThai := details.exampleSentenceThai
      exampleSentenceEnglish := details.exampleSentenceEnglish }

/-- The observable React state of `TranslateTab`: the `status` and
`result` `useState` cells and the `currentSearchRef` ref. -/
structure AppState where
  status : LoadingState
  result : Option TranslationResult
  currentSearchRef : String
deriving DecidableEq, Repr

/-- Initial component state: `IDLE`, no result, empty ref. -/
def initialAppState : AppState :=
  { status := .IDLE, result := none, currentSearchRef := "" }

/-- One submitted query together with the oracles for its three remote
stages.  `stage1`/`stage2` are the outcomes of `quickTranslate` and
`analyzeText` (`none` = the promise rejects, landing in the outer
`catch`).  `stage3` is the outcome of the enrichment remote call inside
`getSynonymsForSegments` (`none` = that call fails and the service's
own `catch` returns the segments unchanged); `stage3Throws` models the
remaining possibility of `getSynonymsForSegments` itself rejecting,
which lands in the component's inner `catch` and is ignored. -/
structure Query where
  input : String
  stage1 : Option BasicTranslation
  stage2 : Option Analysis
  stage3 : Option (List SynEntry)
  stage3Throws : Bool := false
deriving DecidableEq, Repr

/-- The suspension points of `handleSearch`: `start` = the synchronous
prologue has not run yet; `s1Pending`/`s2Pending`/`s3Pending` = waiting
on the corresponding stage's promise (carrying the values closed over);
`done` = the async function returned. -/
inductive Pos where
  | start
  | s1Pending
  | s2Pending (basic : BasicTranslation)
  | s3Pending (basic : BasicTranslation) (details : Analysis)
  | done
deriving DecidableEq, Repr

/-- One atomic resume block of `handleSearch` for query `q`
(`src/components/TranslateTab.tsx` lines 34-98).

* `start`: `if (!input.trim()) return;` else set
  `currentSearchRef = currentTerm`, `result = null`,
  `status = LOADING`, and await Stage 1.
* `s1Pending`: a rejection lands in the outer `catch`, which sets
  `status = ERROR` with no token check; on success, a stale token
  returns silently, otherwise the initial result is published with
  `PARTIAL_SUCCESS` and Stage 2 is awaited.
* `s2Pending`: same shape; success publishes the intermediate result
  with `SUCCESS` and awaits Stage 3.
* `s3Pending`: a rejection of `getSynonymsForSegments` is swallowed by
  the inner `catch` (no state change); on resolution, a stale token
  returns silently, otherwise `setResult(prev => prev ? {...prev,
  segments} : null)` patches the segments (status untouched). -/
def step1 (q : Query) : Pos × AppState → Pos × AppState
  | (.start, s) =>
    if jsTrim q.input = "" then (.done, s)
    else
      (.s1Pending,
       { status := .LOADING, result := none,
         currentSearchRef := jsTrim q.input })
  | (.s1Pending, s) =>
    match q.stage1 with
    | none => (.done, { s with status := .ERROR })
    | some basic =>
      if s.currentSearchRef ≠ jsTrim q.input then (.done, s)
      else
        (.s2Pending basic,
         { s with result := some (initialResult (jsTrim q.input) basic),
                  status := .PARTIAL_SUCCESS })
  | (.s2Pending basic, s) =>
    match q.stage2 with
    | none => (.done, { s with status := .ERROR })
    | some details =>
      if s.currentSearchRef ≠ jsTrim q.input then (.done, s)
      else
        (.s3Pending basic details,
         { s with
             result := some (intermediateResult (jsTrim q.input) basic details),
             status := .SUCCESS })
  | (.s3Pending _basic details, s) =>
    if q.stage3Throws then (.done, s)
    else
      let segs := (getSynonymsForSegments details.segments q.stage3).1
      if s.currentSearchRef ≠ jsTrim q.input then (.done, s)
      else
        (.done,
         { s with
             result := s.result.map fun prev => { prev with segments := segs } })
  | (.done, s) => (.done, s)

/-- Iterate `step1` `n` times. -/
def stepN (q : Query) : Nat → Pos × AppState → Pos × AppState
  | 0, c => c
  | n + 1, c => stepN q n (step1 q c)

/-- The state after running one query's pipeline alone to completion
(four resume blocks always suffice; `done` is absorbing). -/
def runPipeline (q : Query) : AppState :=
  (stepN q 4 (.start, initialAppState)).2

/-- A configuration of two overlapping pipelines: the positions of the
`handleSearch` invocations for `q1` and `q2`, and the shared component
state. -/
structure Conf where
  p1 : Pos
  p2 : Pos
  app : AppState
deriving DecidableEq, Repr

/-- Advance one of the two pipelines by one atomic block:
`false` resumes `q1`'s invocation, `true` resumes `q2`'s. -/
def stepAt (q1 q2 : Query) (c : Conf) (b : Bool) : Conf :=
  if b then
    let r := step1 q2 (c.p2, c.app)
    { c with p2 := r.1, app := r.2 }
  else
    let r := step1 q1 (c.p1, c.app)
    { c with p1 := r.1, app := r.2 }

/-- Run the two-pipeline system along a schedule (the event-loop order
of the atomic blocks), from both pipelines not yet started and the
component in its initial state. -/
def run2 (q1 q2 : Query) (sched : List Bool) : Conf :=
  sched.foldl (stepAt q1 q2) ⟨.start, .start, initialAppState⟩

/-- Default segment, used only to make positional lookups total. -/
def defaultSegment : Segment :=
  { thai := "", transliteration := "", english := "", partOfSpeech := "" }

/-- Number of resume blocks a pipeline can still execute. -/
def Pos.rank : Pos → Nat
  | .start => 4
  | .s1Pending => 3
  | .s2Pending _ => 2
  | .s3Pending _ _ => 1
  | .done => 0

theorem step1_done (q : Query) (s : AppState) :
    step1 q (.done, s) = (.done, s) := rfl

theorem stepN_done (q : Query) (n : Nat) (c : Pos × AppState)
    (h : c.1 = .done) : stepN q n c = c := by
  obtain ⟨p, s⟩ := c
  simp only at h
  subst h
  induction n with
  | zero => rfl
  | succ n ih =>
    simp only [stepN, step1_done]
    exact ih

theorem stepN_add (q : Query) (m n : Nat) (c : Pos × AppState) :
    stepN q (m + n) c = stepN q n (stepN q m c) := by
  induction m generalizing c with
  | zero => simp [stepN]
  | succ m ih =>
    have hmn : m + 1 + n = (m + n) + 1 := by omega
    rw [hmn]
    simp only [stepN]
    exact ih (step1 q c)

theorem stepN_succ_last (q : Query) (n : Nat) (c : Pos × AppState) :
    stepN q (n + 1) c = step1 q (stepN q n c) := by
  induction n generalizing c with
  | zero => rfl
  | succ n ih =>
    simp only [stepN]
    exact ih (step1 q c)

theorem step1_rank_lt (q : Query) (p : Pos) (s : AppState) (h : p ≠ .done) :
    (step1 q (p, s)).1.rank < p.rank := by
  cases p with
  | start =>
    simp only [step1]
    split <;> simp [Pos.rank]
  | s1Pending =>
    simp only [step1]
    split
    · simp [Pos.rank]
    · split <;> simp [Pos.rank]
  | s2Pending basic =>
    simp only [step1]
    split
    · simp [Pos.rank]
    · split <;> simp [Pos.rank]
  | s3Pending basic details =>
    simp only [step1]
    split
    · simp [Pos.rank]
    · split <;> simp [Pos.rank]
  | done => exact absurd rfl h

theorem stepN_rank_done (q : Query) (n : Nat) (c : Pos × AppState)
    (h : c.1.rank ≤ n) : (stepN q n c).1 = .done := by
  induction n generalizing c with
  | zero =>
    have h0 : c.1 = .done := by
      cases hc : c.1
      case done => rfl
      all_goals (rw [hc] at h; simp [Pos.rank] at h)
    rw [stepN_done q 0 c h0]
    exact h0
  | succ n ih =>
    obtain ⟨p, s⟩ := c
    by_cases hd : p = .done
    · subst hd
      rw [stepN_done q (n + 1) (.done, s) rfl]
    · simp only [stepN]
      apply ih
      have hlt := step1_rank_lt q p s hd
      have hp : p.rank ≤ n + 1 := h
      omega

theorem step1_preserves_token (q : Query) (p : Pos) (s : AppState)
    (h : p ≠ .start) :
    (step1 q (p, s)).2.currentSearchRef = s.currentSearchRef ∧
      (step1 q (p, s)).1 ≠ .start := by
  cases p with
  | start => exact absurd rfl h
  | s1Pending =>
    simp only [step1]
    split
    · simp
    · split <;> simp
  | s2Pending basic =>
    simp only [step1]
    split
    · simp
    · split <;> simp
  | s3Pending basic details =>
    simp only [step1]
    split
    · simp
    · split <;> simp
  | done => simp [step1]

theorem stepN_preserves_token (q : Query) (n : Nat) (p : Pos) (s : AppState)
    (h : p ≠ .start) :
    (stepN q n (p, s)).2.currentSearchRef = s.currentSearchRef ∧
      (stepN q n (p, s)).1 ≠ .start := by
  induction n generalizing p s with
  | zero => exact ⟨rfl, h⟩
  | succ n ih =>
    simp only [stepN]
    obtain ⟨h1, h2⟩ := step1_preserves_token q p s h
    obtain ⟨ih1, ih2⟩ := ih (step1 q (p, s)).1 (step1 q (p, s)).2 h2
    exact ⟨ih1.trans h1, ih2⟩

theorem mergeSynonyms_length (segments : List Segment)
    (synonymData : List SynEntry) :
    (mergeSynonyms segments synonymData).length = segments.length := by
  simp [mergeSynonyms]

theorem mergeSynonyms_getD (segments : List Segment)
    (synonymData : List SynEntry) (i : Nat) (hi : i < segments.length) :
    (mergeSynonyms segments synonymData).getD i defaultSegment =
      match synonymData.find? (fun d =>
          d.word == (segments.getD i defaultSegment).thai) with
      | some m => { segments.getD i defaultSegment with
                      synonyms := some m.synonyms }
      | none => { segments.getD i defaultSegment with
                    synonyms := some [] } := by
  unfold mergeSynonyms
  rw [List.getD_eq_getElem _ _ (by simpa using hi),
    List.getD_eq_getElem _ _ hi, List.getElem_map]

theorem mergeSynonyms_synonyms_getD (segments : List Segment)
    (synonymData : List SynEntry) (i : Nat) (hi : i < segments.length) :
    ((mergeSynonyms segments synonymData).getD i defaultSegment).synonyms =
      some (((synonymData.find? fun d =>
        d.word == (segments.getD i defaultSegment).thai).map
          SynEntry.synonyms).getD []) := by
  rw [mergeSynonyms_getD segments synonymData i hi]
  cases hf : synonymData.find? fun d =>
      d.word == (segments.getD i defaultSegment).thai <;> rfl

theorem mergeSynonyms_other_fields (segments : List Segment)
    (synonymData : List SynEntry) (i : Nat) (hi : i < segments.length) :
    ((mergeSynonyms segments synonymData).getD i defaultSegment).thai =
        (segments.getD i defaultSegment).thai ∧
    ((mergeSynonyms segments synonymData).getD i defaultSegment).transliteration =
        (segments.getD i defaultSegment).transliteration ∧
    ((mergeSynonyms segments synonymData).getD i defaultSegment).english =
        (segments.getD i defaultSegment).english ∧
    ((mergeSynonyms segments synonymData).getD i defaultSegment).partOfSpeech =
        (segments.getD i defaultSegment).partOfSpeech := by
  rw [mergeSynonyms_getD segments synonymData i hi]
  cases hf : synonymData.find? fun d =>
      d.word == (segments.getD i defaultSegment).thai <;>
    exact ⟨rfl, rfl, rfl, rfl⟩

/-- **C6, counterexample.**  The claim quantifies over *every* enrichment
entry: "if an enrichment entry has word w, then every segment whose text
equals w receives that entry's synonym list."  `Array.prototype.find`
returns the *first* matching entry, so when the enrichment response
contains two entries for the same word, the second entry's list is not
received by anybody: here the response holds both `("A", ["x"])` and
`("A", ["y"])`, the sole segment has text `"A"`, yet it receives
`["x"]`, not the second entry's `["y"]`. -/
theorem mergeSynonyms_duplicate_entry_cex :
    mergeSynonyms [(⟨"A", "t", "e", "p", none⟩ : Segment)]
        [⟨"A", ["x"]⟩, ⟨"A", ["y"]⟩] =
      [⟨"A", "t", "e", "p", some ["x"]⟩] ∧
    (⟨"A", ["y"]⟩ : SynEntry) ∈ [(⟨"A", ["x"]⟩ : SynEntry), ⟨"A", ["y"]⟩] ∧
    (["x"] : List String) ≠ ["y"] := by
  refine ⟨rfl, by simp, by decide⟩

/-- **C6, amended.**  The synonym merge matches purely by the segment's
literal Thai text: segment `i` receives exactly the synonym list of the
*first* enrichment entry whose `word` equals its text (`[]` if there is
none); consequently any two segments with identical text — duplicates
included — receive identical synonym lists. -/
theorem mergeSynonyms_by_text (segments : List Segment)
    (synonymData : List SynEntry) (i : Nat) (hi : i < segments.length) :
    ((mergeSynonyms segments synonymData).getD i defaultSegment).synonyms =
      some (((synonymData.find? fun d =>
        d.word == (segments.getD i defaultSegment).thai).map
          SynEntry.synonyms).getD []) ∧
    ∀ j, j < segments.length →
      (segments.getD i defaultSegment).thai =
        (segments.getD j defaultSegment).thai →
      ((mergeSynonyms segments synonymData).getD i defaultSegment).synonyms =
        ((mergeSynonyms segments synonymData).getD j defaultSegment).synonyms := by
  refine ⟨mergeSynonyms_synonyms_getD segments synonymData i hi, ?_⟩
  intro j hj hthai
  rw [mergeSynonyms_synonyms_getD segments synonymData i hi,
    mergeSynonyms_synonyms_getD segments synonymData j hj, hthai]

theorem mergeSynonyms_by_text_witness :
    (0 : Nat) < ([(⟨"A", "t", "e", "p", none⟩ : Segment), (⟨"A", "u", "f", "q", none⟩ : Segment)] : List Segment).length ∧
    ((mergeSynonyms [(⟨"A", "t", "e", "p", none⟩ : Segment), (⟨"A", "u", "f", "q", none⟩ : Segment)]
        [⟨"A", ["x"]⟩]).getD 0 defaultSegment).synonyms =
      ((mergeSynonyms [(⟨"A", "t", "e", "p", none⟩ : Segment), (⟨"A", "u", "f", "q", none⟩ : Segment)]
        [⟨"A", ["x"]⟩]).getD 1 defaultSegment).synonyms :=
  ⟨by decide,
    (mergeSynonyms_by_text _ [⟨"A", ["x"]⟩] 0 (by decide)).2 1 (by decide)
      (by decide)⟩

/-- **C7, counterexample.**  The claim says a segment whose text does
not appear in the enrichment response "keeps its synonyms field absent."
The code executes `synonyms: match ? match.synonyms : []`, so the
unmatched segment gets a *present, empty* synonyms array, not an absent
field: merging the one segment `"A"` with an empty response yields
`synonyms = some []`, which differs from the absent value `none`. -/
theorem mergeSynonyms_unmatched_cex :
    mergeSynonyms [(⟨"A", "t", "e", "p", none⟩ : Segment)] [] =
      [⟨"A", "t", "e", "p", some []⟩] ∧
    some ([] : List String) ≠ none := by
  refine ⟨rfl, by decide⟩

/-- **C7, amended.**  After the Stage 3 merge, a segment whose text does
not appear as a `word` of any enrichment entry gets its `synonyms` field
set to the *empty list* (present but empty) — not left absent. -/
theorem mergeSynonyms_unmatched_empty (segments : List Segment)
    (synonymData : List SynEntry) (i : Nat) (hi : i < segments.length)
    (habs : ∀ e ∈ synonymData,
      e.word ≠ (segments.getD i defaultSegment).thai) :
    ((mergeSynonyms segments synonymData).getD i defaultSegment).synonyms =
      some [] := by
  have hf : (synonymData.find? fun d =>
      d.word == (segments.getD i defaultSegment).thai) = none := by
    rw [List.find?_eq_none]
    intro e he
    simpa using habs e he
  rw [mergeSynonyms_synonyms_getD segments synonymData i hi, hf]
  rfl

theorem mergeSynonyms_unmatched_empty_witness :
    (0 : Nat) < ([(⟨"A", "t", "e", "p", none⟩ : Segment)] : List Segment).length ∧
    ((mergeSynonyms [(⟨"A", "t", "e", "p", none⟩ : Segment)]
        [⟨"B", ["x"]⟩]).getD 0 defaultSegment).synonyms = some [] :=
  ⟨by decide,
    mergeSynonyms_unmatched_empty _ [⟨"B", ["x"]⟩] 0 (by decide) (by decide)⟩

/-- **C9, confirmed.**  `getSynonymsForSegments` caps the enrichment
call at the first 8 segments: for a non-empty segment list the list of
words submitted to the remote call is exactly the `thai` texts of
`segments.slice(0, 8)` — it has length `min 8 segments.length` and its
`i`-th word is the `i`-th segment's text, in order. -/
theorem getSynonyms_words_capped (segments : List Segment)
    (response : Option (List SynEntry)) (hne : segments ≠ []) :
    (getSynonymsForSegments segments response).2 =
      some ((segments.take 8).map Segment.thai) ∧
    ((segments.take 8).map Segment.thai).length = min 8 segments.length ∧
    ∀ i, i < min 8 segments.length →
      ((segments.take 8).map Segment.thai).getD i "" =
        (segments.getD i defaultSegment).thai := by
  refine ⟨?_, by simp, ?_⟩
  · unfold getSynonymsForSegments
    rw [if_neg (by simpa using hne)]
    cases response <;> rfl
  · intro i hilt
    have h1 : i < ((segments.take 8).map Segment.thai).length := by
      simp
      omega
    have h2 : i < segments.length := by omega
    rw [List.getD_eq_getElem _ _ h1, List.getD_eq_getElem _ _ h2,
      List.getElem_map]
    congr 1
    exact List.getElem_take ..

theorem getSynonyms_words_capped_witness :
    ([(⟨"A", "t", "e", "p", none⟩ : Segment)] : List Segment) ≠ [] ∧
    (getSynonymsForSegments [(⟨"A", "t", "e", "p", none⟩ : Segment)]
        (some [])).2 = some ["A"] :=
  ⟨by decide,
    (getSynonyms_words_capped [(⟨"A", "t", "e", "p", none⟩ : Segment)]
      (some []) (by decide)).1⟩

/-- **C10, confirmed.**  `getSynonymsForSegments` is a per-segment
patch: for an empty input list it returns the input unchanged and makes
no remote call (second component `none`); otherwise — whether the
remote call succeeds or fails — the output has exactly the input's
length, and the `i`-th output segment agrees with the `i`-th input
segment on every field except `synonyms`. -/
theorem getSynonyms_frame (segments : List Segment)
    (response : Option (List SynEntry)) :
    (segments = [] → getSynonymsForSegments segments response =
      (segments, none)) ∧
    (getSynonymsForSegments segments response).1.length = segments.length ∧
    ∀ i, i < segments.length →
      (((getSynonymsForSegments segments response).1.getD i
          defaultSegment).thai = (segments.getD i defaultSegment).thai ∧
       ((getSynonymsForSegments segments response).1.getD i
          defaultSegment).transliteration =
            (segments.getD i defaultSegment).transliteration ∧
       ((getSynonymsForSegments segments response).1.getD i
          defaultSegment).english =
            (segments.getD i defaultSegment).english ∧
       ((getSynonymsForSegments segments response).1.getD i
          defaultSegment).partOfSpeech =
            (segments.getD i defaultSegment).partOfSpeech) := by
  by_cases hempty : segments = []
  · subst hempty
    refine ⟨fun _ => ?_, by simp [getSynonymsForSegments], by simp⟩
    unfold getSynonymsForSegments
    rfl
  · have hne : ¬ (segments.isEmpty = true) := by simpa using hempty
    refine ⟨fun h => absurd h hempty, ?_, ?_⟩
    · unfold getSynonymsForSegments
      rw [if_neg hne]
      cases response with
      | none => rfl
      | some synonymData => simpa using mergeSynonyms_length segments synonymData
    · intro i hi
      unfold getSynonymsForSegments
      rw [if_neg hne]
      cases response with
      | none => exact ⟨rfl, rfl, rfl, rfl⟩
      | some synonymData => simpa using mergeSynonyms_other_fields segments synonymData i hi

theorem getSynonyms_frame_witness :
    (getSynonymsForSegments [(⟨"A", "t", "e", "p", none⟩ : Segment)]
        none).1.length =
      ([(⟨"A", "t", "e", "p", none⟩ : Segment)] : List Segment).length :=
  (getSynonyms_frame [(⟨"A", "t", "e", "p", none⟩ : Segment)] none).2.1

/-- **C8, confirmed.**  If the input is empty after trimming whitespace,
`handleSearch` hits `if (!input.trim()) return;` before any side
effect: the submit step leaves the component state exactly unchanged
and moves the invocation directly to `done` — it never reaches the
`s1Pending` suspension point, so no stage fetcher is invoked; running
such a query's whole pipeline from the initial state stays at the
initial state. -/
theorem submit_empty_noop (q : Query) (s : AppState)
    (h : jsTrim q.input = "") :
    step1 q (.start, s) = (.done, s) ∧ runPipeline q = initialAppState := by
  constructor
  · simp [step1, h]
  · show (stepN q 3 (step1 q (.start, initialAppState))).2 = _
    rw [show step1 q (.start, initialAppState) = (.done, initialAppState) by
        simp [step1, h],
      stepN_done q 3 _ rfl]

theorem submit_empty_noop_witness :
    jsTrim "   " = "" ∧
    step1 ⟨"   ", some ⟨"B", "b"⟩, none, none, false⟩
        (.start, initialAppState) = (.done, initialAppState) :=
  ⟨by decide,
    (submit_empty_noop ⟨"   ", some ⟨"B", "b"⟩, none, none, false⟩
      initialAppState (by decide)).1⟩

theorem getSynonyms_failure_id (segments : List Segment) :
    (getSynonymsForSegments segments none).1 = segments := by
  unfold getSynonymsForSegments
  split <;> rfl

theorem run_start (q : Query) (hne : jsTrim q.input ≠ "") :
    step1 q (.start, initialAppState) =
      (.s1Pending, ⟨.LOADING, none, jsTrim q.input⟩) := by
  simp [step1, hne]

theorem run_s1_publish (q : Query) (basic : BasicTranslation)
    (h1 : q.stage1 = some basic) :
    step1 q (.s1Pending, ⟨.LOADING, none, jsTrim q.input⟩) =
      (.s2Pending basic,
       ⟨.PARTIAL_SUCCESS, some (initialResult (jsTrim q.input) basic),
        jsTrim q.input⟩) := by
  simp [step1, h1]

/-- **C4, confirmed.**  When Stage 1 succeeds (token matching) and
Stage 2 then fails with the token still matching, the outer `catch`
sets state `ERROR` while the published result is still `initialResult`:
it carries Stage 1's `translatedText` and `transliteration` and its
`segments` field is still the empty list. -/
theorem stage2_failure_keeps_stage1_result (q : Query) (basic : BasicTranslation)
    (hne : jsTrim q.input ≠ "") (h1 : q.stage1 = some basic)
    (h2 : q.stage2 = none) :
    runPipeline q =
      ⟨.ERROR, some (initialResult (jsTrim q.input) basic), jsTrim q.input⟩ ∧
    (initialResult (jsTrim q.input) basic).segments = [] ∧
    (initialResult (jsTrim q.input) basic).translatedText =
      basic.translatedText ∧
    (initialResult (jsTrim q.input) basic).transliteration =
      basic.transliteration := by
  refine ⟨?_, rfl, rfl, rfl⟩
  show (stepN q 3 (step1 q (.start, initialAppState))).2 = _
  rw [run_start q hne]
  show (stepN q 2 (step1 q (.s1Pending, _))).2 = _
  rw [run_s1_publish q basic h1]
  show (stepN q 1 (step1 q (.s2Pending basic, _))).2 = _
  rw [show step1 q (.s2Pending basic,
      (⟨.PARTIAL_SUCCESS, some (initialResult (jsTrim q.input) basic),
        jsTrim q.input⟩ : AppState)) =
      (.done, ⟨.ERROR, some (initialResult (jsTrim q.input) basic),
        jsTrim q.input⟩) by simp [step1, h2]]
  rfl

theorem stage2_failure_keeps_stage1_result_witness :
    jsTrim "hi" ≠ "" ∧
    runPipeline ⟨"hi", some ⟨"B", "b"⟩, none, none, false⟩ =
      ⟨.ERROR, some (initialResult "hi" ⟨"B", "b"⟩), "hi"⟩ :=
  ⟨by decide,
    (stage2_failure_keeps_stage1_result ⟨"hi", some ⟨"B", "b"⟩, none, none, false⟩
      ⟨"B", "b"⟩ (by decide) rfl rfl).1⟩

/-- **C5, counterexample.**  The claim says a Stage 3 failure never
clears or alters the previously published segments, *regardless of
token*.  But when the enrichment remote call fails, the service's own
`catch` (geminiService.ts lines 190-194) resolves successfully with the
*original* segments, and the component then runs `setResult(prev =>
({...prev, segments}))` after a token check that a same-term
resubmission passes: q1 = "a" reaches `s3Pending` (its Stage 3 remote
call will fail), q2 = "a" is resubmitted and publishes `SUCCESS` with
its own segment `"Q"`; q1's failed-enrichment resume then passes the
token check and overwrites the published segments with q1's Stage 2
segment `"P"` — the previously published segments are altered by a
Stage 3 failure. -/
theorem stage3_failure_overwrites_cex :
    (⟨"a", some ⟨"X", "x"⟩, some ⟨[⟨"P", "p", "pe", "n", none⟩], "e1", "f1"⟩,
        none, false⟩ : Query).stage3 = none ∧
    (run2 ⟨"a", some ⟨"X", "x"⟩, some ⟨[⟨"P", "p", "pe", "n", none⟩],
          "e1", "f1"⟩, none, false⟩
        ⟨"a", some ⟨"Y", "y"⟩, some ⟨[⟨"Q", "q", "qe", "n", none⟩],
          "e2", "f2"⟩, some [], false⟩
        [false, false, false, true, true, true]).p1 =
      .s3Pending ⟨"X", "x"⟩ ⟨[⟨"P", "p", "pe", "n", none⟩], "e1", "f1"⟩ ∧
    (run2 ⟨"a", some ⟨"X", "x"⟩, some ⟨[⟨"P", "p", "pe", "n", none⟩],
          "e1", "f1"⟩, none, false⟩
        ⟨"a", some ⟨"Y", "y"⟩, some ⟨[⟨"Q", "q", "qe", "n", none⟩],
          "e2", "f2"⟩, some [], false⟩
        [false, false, false, true, true, true]).app.status = .SUCCESS ∧
    ((run2 ⟨"a", some ⟨"X", "x"⟩, some ⟨[⟨"P", "p", "pe", "n", none⟩],
          "e1", "f1"⟩, none, false⟩
        ⟨"a", some ⟨"Y", "y"⟩, some ⟨[⟨"Q", "q", "qe", "n", none⟩],
          "e2", "f2"⟩, some [], false⟩
        [false, false, false, true, true, true]).app.result.map
      TranslationResult.segments) = some [⟨"Q", "q", "qe", "n", none⟩] ∧
    (run2 ⟨"a", some ⟨"X", "x"⟩, some ⟨[⟨"P", "p", "pe", "n", none⟩],
          "e1", "f1"⟩, none, false⟩
        ⟨"a", some ⟨"Y", "y"⟩, some ⟨[⟨"Q", "q", "qe", "n", none⟩],
          "e2", "f2"⟩, some [], false⟩
        [false, false, false, true, true, true, false]).app.status =
      .SUCCESS ∧
    ((run2 ⟨"a", some ⟨"X", "x"⟩, some ⟨[⟨"P", "p", "pe", "n", none⟩],
          "e1", "f1"⟩, none, false⟩
        ⟨"a", some ⟨"Y", "y"⟩, some ⟨[⟨"Q", "q", "qe", "n", none⟩],
          "e2", "f2"⟩, some [], false⟩
        [false, false, false, true, true, true, false]).app.result.map
      TranslationResult.segments) = some [⟨"P", "p", "pe", "n", none⟩] ∧
    ([(⟨"P", "p", "pe", "n", none⟩ : Segment)] : List Segment) ≠
      [⟨"Q", "q", "qe", "n", none⟩] := by
  exact ⟨by decide, by decide, by decide, by decide, by decide, by decide,
    by decide⟩

/-- **C5, amended.**  A Stage 3 (synonym enrichment) failure never
changes the pipeline state and is never surfaced as an error, and it
leaves the published result untouched *provided the published result is
still the one this pipeline's Stage 2 produced* — in particular in any
single-query execution, which ends exactly in the Stage-2-published
state.  In detail, under a failing Stage 3 (remote failure swallowed by
the service's own `catch`, or a rejection swallowed by the component's
inner `catch`): (1) the solo run ends in state `SUCCESS` with
`intermediateResult` published; (2) that result's segments are
`details.segments`; (3) any Stage 3 resume leaves `status` unchanged;
(4) a stale-token resume is the identity on the component state; (5) a
resume finding the published result with this pipeline's own Stage 2
segments is the identity on the component state.  (Only when a
same-term resubmission has republished in between can the resume
rewrite `segments` — the counterexample above.) -/
theorem stage3_failure_nonfatal (q : Query) (basic : BasicTranslation)
    (details : Analysis) (hne : jsTrim q.input ≠ "")
    (h1 : q.stage1 = some basic) (h2 : q.stage2 = some details)
    (h3 : q.stage3 = none ∨ q.stage3Throws = true) :
    runPipeline q =
      ⟨.SUCCESS, some (intermediateResult (jsTrim q.input) basic details),
        jsTrim q.input⟩ ∧
    (intermediateResult (jsTrim q.input) basic details).segments =
      details.segments ∧
    (∀ (b : BasicTranslation) (d : Analysis) (s : AppState),
      (step1 q (.s3Pending b d, s)).2.status = s.status) ∧
    (∀ (b : BasicTranslation) (d : Analysis) (s : AppState),
      s.currentSearchRef ≠ jsTrim q.input →
      (step1 q (.s3Pending b d, s)).2 = s) ∧
    (∀ (b : BasicTranslation) (d : Analysis) (s : AppState)
      (r : TranslationResult), s.result = some r →
      r.segments = d.segments →
      (step1 q (.s3Pending b d, s)).2 = s) := by
  refine ⟨?_, rfl, ?_, ?_, ?_⟩
  · show (stepN q 3 (step1 q (.start, initialAppState))).2 = _
    rw [run_start q hne]
    show (stepN q 2 (step1 q (.s1Pending, _))).2 = _
    rw [run_s1_publish q basic h1]
    show (stepN q 1 (step1 q (.s2Pending basic, _))).2 = _
    rw [show step1 q (.s2Pending basic,
        (⟨.PARTIAL_SUCCESS, some (initialResult (jsTrim q.input) basic),
          jsTrim q.input⟩ : AppState)) =
        (.s3Pending basic details,
         ⟨.SUCCESS, some (intermediateResult (jsTrim q.input) basic details),
          jsTrim q.input⟩) by simp [step1, h2]]
    show (step1 q (.s3Pending basic details, _)).2 = _
    rcases h3 with h3 | h3
    · simp only [step1, getSynonyms_failure_id, h3]
      split
      · rfl
      · rw [if_neg (by simp)]
        rfl
    · simp [step1, h3]
  · intro b d s
    by_cases ht : q.stage3Throws
    · simp [step1, ht]
    · by_cases htok : s.currentSearchRef = jsTrim q.input
      · simp [step1, ht, htok]
      · simp [step1, ht, htok]
  · intro b d s hs
    by_cases ht : q.stage3Throws
    · simp [step1, ht]
    · simp [step1, ht, hs]
  · intro b d s r hres hseg
    by_cases ht : q.stage3Throws
    · simp [step1, ht]
    · rcases h3 with h3 | h3
      · by_cases htok : s.currentSearchRef = jsTrim q.input
        · have hstep : (step1 q (.s3Pending b d, s)).2 =
              { s with result := s.result.map fun prev =>
                  { prev with segments := d.segments } } := by
            simp [step1, ht, h3, getSynonyms_failure_id, htok]
          rw [hstep, hres]
          rw [show (some r).map (fun prev =>
              ({ prev with segments := d.segments } : TranslationResult)) =
              some { r with segments := d.segments } from rfl]
          rw [← hseg]
          rw [show ({ r with segments := r.segments } :
              TranslationResult) = r from rfl]
          rw [← hres]
        · simp [step1, ht, htok]
      · exact absurd h3 (by simpa using ht)

theorem stage3_failure_nonfatal_witness :
    jsTrim "hi" ≠ "" ∧
    runPipeline ⟨"hi", some ⟨"B", "b"⟩,
        some ⟨[(⟨"A", "t", "e", "p", none⟩ : Segment)], "et", "ee"⟩,
        none, false⟩ =
      ⟨.SUCCESS, some (intermediateResult "hi" ⟨"B", "b"⟩
        ⟨[(⟨"A", "t", "e", "p", none⟩ : Segment)], "et", "ee"⟩), "hi"⟩ :=
  ⟨by decide,
    (stage3_failure_nonfatal ⟨"hi", some ⟨"B", "b"⟩,
        some ⟨[(⟨"A", "t", "e", "p", none⟩ : Segment)], "et", "ee"⟩,
        none, false⟩
      ⟨"B", "b"⟩ ⟨[(⟨"A", "t", "e", "p", none⟩ : Segment)], "et", "ee"⟩
      (by decide) rfl rfl (Or.inl rfl)).1⟩

theorem step1_result_status (q : Query) (p : Pos) (s : AppState)
    (hs : s.result ≠ none →
      s.status = .PARTIAL_SUCCESS ∨ s.status = .SUCCESS ∨
        s.status = .ERROR) :
    (step1 q (p, s)).2.result ≠ none →
      (step1 q (p, s)).2.status = .PARTIAL_SUCCESS ∨
      (step1 q (p, s)).2.status = .SUCCESS ∨
      (step1 q (p, s)).2.status = .ERROR := by
  cases p with
  | start =>
    simp only [step1]
    split
    · exact hs
    · intro hr
      simp at hr
  | s1Pending =>
    simp only [step1]
    split
    · intro _
      simp
    · split
      · exact hs
      · intro _
        simp
  | s2Pending basic =>
    simp only [step1]
    split
    · intro _
      simp
    · split
      · exact hs
      · intro _
        simp
  | s3Pending basic details =>
    simp only [step1]
    split
    · exact hs
    · split
      · exact hs
      · intro hr
        cases hres : s.result with
        | none => rw [hres] at hr; simp at hr
        | some r => exact hs (by rw [hres]; simp)
  | done => exact hs

/-- **C3, counterexample.**  The claim says a non-null published result
only ever coexists with state `PARTIAL_SUCCESS` or `SUCCESS`.  But when
Stage 2 fails after Stage 1 published the partial result, the `catch`
sets state `ERROR` *without* clearing the result: after the execution
`[submit q1, q1 Stage 1 resolves, q1 Stage 2 rejects]` the published
result is non-null while the state is `ERROR`. -/
theorem result_nonnull_error_cex :
    (run2 ⟨"a", some ⟨"B", "b"⟩, none, none, false⟩
        ⟨"", none, none, none, false⟩
        [false, false, false]).app.result ≠ none ∧
    (run2 ⟨"a", some ⟨"B", "b"⟩, none, none, false⟩
        ⟨"", none, none, none, false⟩
        [false, false, false]).app.status = .ERROR ∧
    (run2 ⟨"a", some ⟨"B", "b"⟩, none, none, false⟩
        ⟨"", none, none, none, false⟩
        [false, false, false]).app.status ≠ .PARTIAL_SUCCESS ∧
    (run2 ⟨"a", some ⟨"B", "b"⟩, none, none, false⟩
        ⟨"", none, none, none, false⟩
        [false, false, false]).app.status ≠ .SUCCESS := by
  exact ⟨by decide, by decide, by decide, by decide⟩

/-- **C3, amended.**  At every point of every interleaved execution of
two pipelines (every schedule prefix of `run2`), a non-null published
`TranslationResult` coexists only with state `PARTIAL_SUCCESS`,
`SUCCESS`, or `ERROR` — never `IDLE` or `LOADING`.  (`ERROR` must be
admitted because a Stage 2 failure keeps the published partial result
while setting state `ERROR`.) -/
theorem result_nonnull_status (q1 q2 : Query) (sched : List Bool)
    (h : (run2 q1 q2 sched).app.result ≠ none) :
    (run2 q1 q2 sched).app.status = .PARTIAL_SUCCESS ∨
    (run2 q1 q2 sched).app.status = .SUCCESS ∨
    (run2 q1 q2 sched).app.status = .ERROR := by
  suffices hgen : ∀ (l : List Bool) (c : Conf),
      (c.app.result ≠ none → c.app.status = .PARTIAL_SUCCESS ∨
        c.app.status = .SUCCESS ∨ c.app.status = .ERROR) →
      ((l.foldl (stepAt q1 q2) c).app.result ≠ none →
        (l.foldl (stepAt q1 q2) c).app.status = .PARTIAL_SUCCESS ∨
        (l.foldl (stepAt q1 q2) c).app.status = .SUCCESS ∨
        (l.foldl (stepAt q1 q2) c).app.status = .ERROR) by
    exact hgen sched ⟨.start, .start, initialAppState⟩
      (fun hr => absurd rfl hr) h
  intro l
  induction l with
  | nil => exact fun c hc => hc
  | cons b l ih =>
    intro c hc
    simp only [List.foldl_cons]
    apply ih
    cases b
    · exact step1_result_status q1 c.p1 c.app hc
    · exact step1_result_status q2 c.p2 c.app hc

theorem result_nonnull_status_witness :
    (run2 ⟨"a", some ⟨"B", "b"⟩, none, none, false⟩
        ⟨"", none, none, none, false⟩ [false, false]).app.result ≠ none ∧
    ((run2 ⟨"a", some ⟨"B", "b"⟩, none, none, false⟩
        ⟨"", none, none, none, false⟩ [false, false]).app.status =
          .PARTIAL_SUCCESS ∨
     (run2 ⟨"a", some ⟨"B", "b"⟩, none, none, false⟩
        ⟨"", none, none, none, false⟩ [false, false]).app.status =
          .SUCCESS ∨
     (run2 ⟨"a", some ⟨"B", "b"⟩, none, none, false⟩
        ⟨"", none, none, none, false⟩ [false, false]).app.status = .ERROR) :=
  ⟨by decide,
    result_nonnull_status ⟨"a", some ⟨"B", "b"⟩, none, none, false⟩
      ⟨"", none, none, none, false⟩ [false, false] (by decide)⟩

/-- **C2, code bug.**  The claim (and the spec's invariant "dropped
unconditionally, including on error") requires a stale Stage 1/2
failure to be discarded silently.  The code's `catch` block
(`TranslateTab.tsx` lines 94-97) sets `status = ERROR` *without*
re-checking `currentSearchRef`, unlike every success path.  Concretely:
q1 = "a" (its Stage 1 will reject) is submitted, then q2 = "b" is
submitted and runs all three stages to `SUCCESS`; when q1's stale
Stage 1 rejection finally resolves, the state flips from `SUCCESS` to
`ERROR` even though the active token is still q2's `"b"`, while the
displayed result remains q2's — exactly the partial clobbering the
claim rules out. -/
theorem stale_failure_sets_error :
    (run2 ⟨"a", none, none, none, false⟩
        ⟨"b", some ⟨"B", "b"⟩, some ⟨[], "et", "ee"⟩, some [], false⟩
        [false, true, true, true, true]).app.status = .SUCCESS ∧
    (run2 ⟨"a", none, none, none, false⟩
        ⟨"b", some ⟨"B", "b"⟩, some ⟨[], "et", "ee"⟩, some [], false⟩
        [false, true, true, true, true, false]).app.status = .ERROR ∧
    (run2 ⟨"a", none, none, none, false⟩
        ⟨"b", some ⟨"B", "b"⟩, some ⟨[], "et", "ee"⟩, some [], false⟩
        [false, true, true, true, true, false]).app.currentSearchRef =
      "b" ∧
    (run2 ⟨"a", none, none, none, false⟩
        ⟨"b", some ⟨"B", "b"⟩, some ⟨[], "et", "ee"⟩, some [], false⟩
        [false, true, true, true, true, false]).app.result =
      (run2 ⟨"a", none, none, none, false⟩
        ⟨"b", some ⟨"B", "b"⟩, some ⟨[], "et", "ee"⟩, some [], false⟩
        [false, true, true, true, true]).app.result := by
  exact ⟨by decide, by decide, by decide, by decide⟩

/-- **C1, counterexample.**  The claim quantifies over *every* pair of
queries q1 then q2, but the staleness token is just the trimmed input
string: if q2 is a resubmission of the *same* trimmed term (here both
are `"a"`), q1's Stage 1 sees a matching token and *does* publish.  In
the schedule [submit q1, submit q2, q2 Stage 1 publishes, q2 Stage 2
rejects, q1 Stage 1 resolves, q1 Stage 2 rejects] — q2 submitted before
q1's Stage 1 resolves, q1's Stage 1 resolving successfully — q1's
Stage 1 resolution changes the observable state (third conjunct), and
the final displayed result is q1's (`translatedText = "X"`), not what
q2's pipeline alone would have produced (`"Y"`). -/
theorem stale_stage1_same_term_cex :
    (run2 ⟨"a", some ⟨"X", "x"⟩, none, none, false⟩
        ⟨"a", some ⟨"Y", "y"⟩, none, none, false⟩
        [false, true, true, true, false, false]).p1 = .done ∧
    (run2 ⟨"a", some ⟨"X", "x"⟩, none, none, false⟩
        ⟨"a", some ⟨"Y", "y"⟩, none, none, false⟩
        [false, true, true, true, false, false]).p2 = .done ∧
    (run2 ⟨"a", some ⟨"X", "x"⟩, none, none, false⟩
        ⟨"a", some ⟨"Y", "y"⟩, none, none, false⟩
        [false, true, true, true, false]).app ≠
      (run2 ⟨"a", some ⟨"X", "x"⟩, none, none, false⟩
        ⟨"a", some ⟨"Y", "y"⟩, none, none, false⟩
        [false, true, true, true]).app ∧
    (run2 ⟨"a", some ⟨"X", "x"⟩, none, none, false⟩
        ⟨"a", some ⟨"Y", "y"⟩, none, none, false⟩
        [false, true, true, true, false, false]).app.result ≠
      (runPipeline ⟨"a", some ⟨"Y", "y"⟩, none, none, false⟩).result := by
  exact ⟨by decide, by decide, by decide, by decide⟩

/-- **C1, amended.**  For q1 submitted first and q2 submitted before
q1's Stage 1 resolves (schedule `false :: true :: rest`), *provided
q2's trimmed term differs from q1's*, if q1's Stage 1 resolves
successfully it publishes nothing — its resume step is the identity on
any state carrying q2's token (first conjunct) — and once q2's pipeline
has run to completion the final displayed component state is exactly
what q2's pipeline alone produces (second conjunct), under any
interleaving of the two pipelines' remaining steps. -/
theorem stale_stage1_no_publish (q1 q2 : Query) (b1 : BasicTranslation)
    (rest : List Bool)
    (ht1 : jsTrim q1.input ≠ "") (ht2 : jsTrim q2.input ≠ "")
    (hdiff : jsTrim q1.input ≠ jsTrim q2.input)
    (h1 : q1.stage1 = some b1)
    (hdone : (run2 q1 q2 (false :: true :: rest)).p2 = .done) :
    (∀ s : AppState, s.currentSearchRef = jsTrim q2.input →
      step1 q1 (.s1Pending, s) = (.done, s)) ∧
    (run2 q1 q2 (false :: true :: rest)).app = runPipeline q2 := by
  have hstale : ∀ s : AppState, s.currentSearchRef = jsTrim q2.input →
      step1 q1 (.s1Pending, s) = (.done, s) := by
    intro s hs
    have hcond : s.currentSearchRef ≠ jsTrim q1.input := by
      rw [hs]
      exact fun hh => hdiff hh.symm
    simp [step1, h1, hcond]
  refine ⟨hstale, ?_⟩
  have hc0 : run2 q1 q2 [false, true] =
      ⟨.s1Pending, .s1Pending, ⟨.LOADING, none, jsTrim q2.input⟩⟩ := by
    simp [run2, stepAt, step1, ht1, ht2, initialAppState]
  have hinv : ∀ (l : List Bool) (c : Conf),
      ((c.p1 = .s1Pending ∨ c.p1 = .done) ∧
        ∃ n, (c.p2, c.app) =
          stepN q2 n (.s1Pending, ⟨.LOADING, none, jsTrim q2.input⟩)) →
      (((l.foldl (stepAt q1 q2) c).p1 = .s1Pending ∨
          (l.foldl (stepAt q1 q2) c).p1 = .done) ∧
        ∃ n, ((l.foldl (stepAt q1 q2) c).p2,
            (l.foldl (stepAt q1 q2) c).app) =
          stepN q2 n (.s1Pending, ⟨.LOADING, none, jsTrim q2.input⟩)) := by
    intro l
    induction l with
    | nil => exact fun c hc => hc
    | cons b l ih =>
      intro c hc
      simp only [List.foldl_cons]
      apply ih
      obtain ⟨hp1, n, hn⟩ := hc
      have happ : c.app = (stepN q2 n
          (.s1Pending, ⟨.LOADING, none, jsTrim q2.input⟩)).2 :=
        congrArg Prod.snd hn
      have hp2 : c.p2 = (stepN q2 n
          (.s1Pending, ⟨.LOADING, none, jsTrim q2.input⟩)).1 :=
        congrArg Prod.fst hn
      have htok : c.app.currentSearchRef = jsTrim q2.input := by
        rw [happ]
        exact (stepN_preserves_token q2 n .s1Pending
          ⟨.LOADING, none, jsTrim q2.input⟩ (by simp)).1
      cases b with
      | false =>
        have e2 : (stepAt q1 q2 c false).p2 = c.p2 := by
          simp [stepAt]
        rcases hp1 with hp1 | hp1
        · have hst := hstale c.app htok
          have e1 : (stepAt q1 q2 c false).p1 = .done := by
            simp [stepAt, hp1, hst]
          have e3 : (stepAt q1 q2 c false).app = c.app := by
            simp [stepAt, hp1, hst]
          rw [e1, e2, e3]
          exact ⟨Or.inr rfl, n, hn⟩
        · have e1 : (stepAt q1 q2 c false).p1 = .done := by
            simp [stepAt, hp1, step1_done]
          have e3 : (stepAt q1 q2 c false).app = c.app := by
            simp [stepAt, hp1, step1_done]
          rw [e1, e2, e3]
          exact ⟨Or.inr rfl, n, hn⟩
      | true =>
        refine ⟨?_, n + 1, ?_⟩
        · have hpeq : (stepAt q1 q2 c true).p1 = c.p1 := by
            simp [stepAt]
          rw [hpeq]
          exact hp1
        · rw [stepN_succ_last, ← hn]
          simp [stepAt]
  have hrun : run2 q1 q2 (false :: true :: rest) =
      rest.foldl (stepAt q1 q2) (run2 q1 q2 [false, true]) := rfl
  rw [hrun, hc0] at hdone ⊢
  obtain ⟨hp1f, n, hnf⟩ := hinv rest
    ⟨.s1Pending, .s1Pending, ⟨.LOADING, none, jsTrim q2.input⟩⟩
    ⟨Or.inl rfl, 0, rfl⟩
  have hpos : (stepN q2 n
      (.s1Pending, (⟨.LOADING, none, jsTrim q2.input⟩ : AppState))).1 =
        .done := by
    rw [← congrArg Prod.fst hnf]
    exact hdone
  have h3 : (stepN q2 3
      (.s1Pending, (⟨.LOADING, none, jsTrim q2.input⟩ : AppState))).1 =
        .done :=
    stepN_rank_done q2 3 _ (by simp [Pos.rank])
  have hstates : (stepN q2 n
      (.s1Pending, (⟨.LOADING, none, jsTrim q2.input⟩ : AppState))).2 =
      (stepN q2 3
        (.s1Pending, (⟨.LOADING, none, jsTrim q2.input⟩ : AppState))).2 := by
    rcases le_total n 3 with hle | hle
    · have hadd := stepN_add q2 n (3 - n)
        (.s1Pending, (⟨.LOADING, none, jsTrim q2.input⟩ : AppState))
      rw [show n + (3 - n) = 3 by omega] at hadd
      rw [hadd, stepN_done q2 (3 - n) _ hpos]
    · have hadd := stepN_add q2 3 (n - 3)
        (.s1Pending, (⟨.LOADING, none, jsTrim q2.input⟩ : AppState))
      rw [show 3 + (n - 3) = n by omega] at hadd
      rw [hadd, stepN_done q2 (n - 3) _ h3]
  have hrp : runPipeline q2 = (stepN q2 3
      (.s1Pending, (⟨.LOADING, none, jsTrim q2.input⟩ : AppState))).2 := by
    show (stepN q2 3 (step1 q2 (.start, initialAppState))).2 = _
    rw [run_start q2 ht2]
  exact (congrArg Prod.snd hnf).trans (hstates.trans hrp.symm)

theorem stale_stage1_no_publish_witness :
    (run2 ⟨"a", some ⟨"X", "x"⟩, none, none, false⟩
        ⟨"b", some ⟨"Y", "y"⟩, some ⟨[], "et", "ee"⟩, some [], false⟩
        [false, true, true, true, true, false]).p2 = .done ∧
    (run2 ⟨"a", some ⟨"X", "x"⟩, none, none, false⟩
        ⟨"b", some ⟨"Y", "y"⟩, some ⟨[], "et", "ee"⟩, some [], false⟩
        [false, true, true, true, true, false]).app =
      runPipeline ⟨"b", some ⟨"Y", "y"⟩, some ⟨[], "et", "ee"⟩, some [],
        false⟩ :=
  ⟨by decide,
    (stale_stage1_no_publish ⟨"a", some ⟨"X", "x"⟩, none, none, false⟩
      ⟨"b", some ⟨"Y", "y"⟩, some ⟨[], "et", "ee"⟩, some [], false⟩
      ⟨"X", "x"⟩ [true, true, true, false] (by decide) (by decide)
      (by decide) rfl (by decide)).2⟩
